import Mathlib

set_option linter.unusedVariables false
set_option maxRecDepth 2000

/-!
# Verification of the pg_hexedit page/tuple decoding engine

Shallow embedding of `src/pg_hexedit.c` (pg_hexedit 11.0, targeting the
PostgreSQL 11 on-disk format on a 64-bit platform with MAXALIGN = 8).

A page buffer is modelled as a function from byte index to byte value
(reads past the bytes actually present return 0; the C code never
dereferences such bytes on the paths modelled here, because every
dereference is guarded by `bytesToFormat == blockSize` checks that we
reproduce faithfully).  Multi-byte fields are little-endian, as on the
x86-64 platforms the tool targets.

The tool's output is a stream of wxHexEditor TAG records.  Each printf
of a TAG block (EmitXmlTag / EmitXmlTupleTag / EmitXmlItemId) is
modelled as appending one `Tag` record carrying the id (the global
`tagNumber` counter, which the C code post-increments at every emission),
the inclusive start and end byte offsets, the label and the colour.
The literal XML wrapper text and the printf formatting of label strings
are boundary-layer concerns; a label is modelled as an inductive value
carrying exactly the data the C code interpolates into the text
(for flag words, the raw mask).

`exit(exitCode)` (a fatal abort of the whole run) is modelled by
returning `Except.error exitCode`; a normal return is `Except.ok`.
The global `exitCode` variable is a field of `EmitState`.

32-bit wraparound of display offsets (which the C code would exhibit
only on relation segments of 4 GiB or more) is outside the model:
offsets are `Nat`.
-/

namespace PgHexedit

/-- A page buffer: byte at index i.  Values are reduced mod 256 at read
time, so arbitrary functions denote byte buffers. -/
abbrev Page := Nat → Nat

def byteAt (p : Page) (i : Nat) : Nat := p i % 256

/-- Little-endian 16-bit read, as the C casts `*(uint16 *)`. -/
def read16 (p : Page) (i : Nat) : Nat := byteAt p i + 256 * byteAt p (i + 1)

/-- Little-endian 32-bit read, as the C casts `*(uint32 *)` / `*(int *)`. -/
def read32 (p : Page) (i : Nat) : Nat :=
  byteAt p i + 256 * byteAt p (i + 1) + 65536 * byteAt p (i + 2) +
    16777216 * byteAt p (i + 3)

/-! ## Constants from the PostgreSQL 11 headers (64-bit build) -/

/-- MAXALIGN rounds up to a multiple of 8 (MAXIMUM_ALIGNOF = 8). -/
def MAXALIGN (x : Nat) : Nat := (x + 7) / 8 * 8

def BLCKSZ : Nat := 8192

/-- `#define SEQUENCE_MAGIC 0x1717` in pg_hexedit.c. -/
def SEQUENCE_MAGIC : Nat := 0x1717

/-- sizeof(PageHeaderData) = offsetof(PageHeaderData, pd_linp[0]) = 24:
pd_lsn 8, pd_checksum 2, pd_flags 2, pd_lower 2, pd_upper 2,
pd_special 2, pd_pagesize_version 2, pd_prune_xid 4. -/
def sizeofPageHeaderData : Nat := 24

def SizeOfPageHeaderData : Nat := 24

def sizeofItemIdData : Nat := 4

/-- SpGistPageOpaqueData: four uint16 fields. -/
def sizeofSpGistPageOpaqueData : Nat := 8

/-- GinPageOpaqueData: BlockNumber rightlink, OffsetNumber maxoff, uint16 flags. -/
def sizeofGinPageOpaqueData : Nat := 8

/-- BTPageOpaqueData: btpo_prev 4, btpo_next 4, btpo union 4,
btpo_flags 2, btpo_cycleid 2. -/
def sizeofBTPageOpaqueData : Nat := 16

/-- HashPageOpaqueData: prevblkno 4, nextblkno 4, bucket 4, flag 2, page_id 2. -/
def sizeofHashPageOpaqueData : Nat := 16

/-- GISTPageOpaqueData: nsn 8, rightlink 4, flags 2, gist_page_id 2. -/
def sizeofGISTPageOpaqueData : Nat := 16

def SPGIST_PAGE_ID : Nat := 0xFF82
def HASHO_PAGE_ID : Nat := 0xFF80
def GIST_PAGE_ID : Nat := 0xFF81
def MAX_BT_CYCLE_ID : Nat := 0xFF7F

def BTP_LEAF : Nat := 1
def BTP_ROOT : Nat := 2
def BTP_META : Nat := 8

def PG_PAGE_LAYOUT_VERSION : Nat := 4

def HEAP_HASNULL : Nat := 0x0001
def HEAP_HASOID : Nat := 0x0008
/-- HEAP_MOVED = HEAP_MOVED_OFF | HEAP_MOVED_IN. -/
def HEAP_MOVED : Nat := 0xC000
def HEAP_NATTS_MASK : Nat := 0x07FF

def INDEX_SIZE_MASK : Nat := 0x1FFF

def UINT_MAX : Nat := 4294967295

def EOF_ENCOUNTERED : Int := -1

/-! ## Page-header accessors (bufpage.h macros) -/

def pd_checksum (page : Page) : Nat := read16 page 8
def pd_flags (page : Page) : Nat := read16 page 10
def pd_lower (page : Page) : Nat := read16 page 12
def pd_upper (page : Page) : Nat := read16 page 14
def pd_special (page : Page) : Nat := read16 page 16
def pd_pagesize_version (page : Page) : Nat := read16 page 18

/-- PageGetPageSize: `pd_pagesize_version & 0xFF00`. -/
def PageGetPageSize (page : Page) : Nat := pd_pagesize_version page &&& 0xFF00

/-- PageGetPageLayoutVersion: `pd_pagesize_version & 0x00FF`. -/
def PageGetPageLayoutVersion (page : Page) : Nat :=
  pd_pagesize_version page &&& 0x00FF

/-- PageGetSpecialSize: `(uint16) (PageGetPageSize(page) - pd_special)`;
the cast truncates to 16 bits, so model the subtraction mod 2^16
(pd_special is itself a uint16, hence < 65536). -/
def PageGetSpecialSize (page : Page) : Nat :=
  (PageGetPageSize page + 65536 - pd_special page) % 65536

/-- PageGetMaxOffsetNumber: 0 when pd_lower does not reach past the
header, otherwise the number of ItemId slots the directory holds. -/
def PageGetMaxOffsetNumber (page : Page) : Nat :=
  if pd_lower page ≤ SizeOfPageHeaderData then 0
  else (pd_lower page - SizeOfPageHeaderData) / sizeofItemIdData

/-! ## ItemId (line pointer) decoding

ItemIdData is a 32-bit word of bit-fields, allocated low-to-high on a
little-endian build: lp_off bits 0-14, lp_flags bits 15-16,
lp_len bits 17-31. -/

def lpOff (w : Nat) : Nat := w % 32768
def lpFlags (w : Nat) : Nat := w / 32768 % 4
def lpLen (w : Nat) : Nat := w / 131072 % 32768

/-- LP_UNUSED / LP_NORMAL / LP_REDIRECT / LP_DEAD. -/
def LP_UNUSED : Nat := 0
def LP_NORMAL : Nat := 1
def LP_REDIRECT : Nat := 2
def LP_DEAD : Nat := 3

/-- PageGetItemId(page, k): the raw ItemIdData word of 1-based slot k. -/
def itemIdAt (page : Page) (k : Nat) : Nat :=
  read32 page (SizeOfPageHeaderData + sizeofItemIdData * (k - 1))

/-! ## Special-section classifier -/

/-- The `specialSectionTypes` enum of pg_hexedit.c. -/
inductive SpecialSectionType
  | none
  | sequence
  | btree
  | hash
  | gist
  | gin
  | spgist
  | errUnknown
  | errBoundary
deriving DecidableEq

/-- GetSpecialSectionType: classify the trailing special section from
its size and, when the whole block was read, its content.  Direct
transcription of pg_hexedit.c lines 585-684. -/
def GetSpecialSectionType (blockSize bytesToFormat : Nat) (page : Page) :
    SpecialSectionType :=
  if bytesToFormat > sizeofPageHeaderData then
    let specialOffset := pd_special page
    if specialOffset = 0 ∨ specialOffset > blockSize ∨
        specialOffset > bytesToFormat then
      .errBoundary
    else
      -- last 2 bytes of the page, used to identify index types
      let ptype := read16 page (blockSize - 2)
      let specialSize := blockSize - specialOffset
      if specialSize = 0 then
        .none
      else if specialSize = MAXALIGN 4 then
        -- could be a sequence, SP-GiST or GIN
        if bytesToFormat = blockSize then
          let specialValue := read32 page specialOffset
          if specialValue = SEQUENCE_MAGIC then .sequence
          else if specialSize = MAXALIGN sizeofSpGistPageOpaqueData ∧
              ptype = SPGIST_PAGE_ID then .spgist
          else if specialSize = MAXALIGN sizeofGinPageOpaqueData then .gin
          else .errUnknown
        else .errUnknown
      else if specialSize = MAXALIGN sizeofSpGistPageOpaqueData ∧
          bytesToFormat = blockSize ∧ ptype = SPGIST_PAGE_ID then .spgist
      else if specialSize = MAXALIGN sizeofGinPageOpaqueData then .gin
      else if specialSize > 2 ∧ bytesToFormat = blockSize then
        -- BTree, Hash and GIST share a size; check the page-id bytes
        if ptype ≤ MAX_BT_CYCLE_ID ∧
            specialSize = MAXALIGN sizeofBTPageOpaqueData then .btree
        else if ptype = HASHO_PAGE_ID ∧
            specialSize = MAXALIGN sizeofHashPageOpaqueData then .hash
        else if ptype = GIST_PAGE_ID ∧
            specialSize = MAXALIGN sizeofGISTPageOpaqueData then .gist
        else .errUnknown
      else .errUnknown
  else .errUnknown

/-- IsBtreeMetaPage: the special section has the b-tree opaque size, the
whole block was read, the cycle id is sane and the BTP_META flag is set.
The opaque struct lives at pd_special: btpo_flags at +12, btpo_cycleid
at +14. -/
def IsBtreeMetaPage (blockSize bytesToFormat : Nat) (page : Page) : Bool :=
  if PageGetSpecialSize page = MAXALIGN sizeofBTPageOpaqueData ∧
      bytesToFormat = blockSize then
    decide (read16 page (pd_special page + 14) ≤ MAX_BT_CYCLE_ID ∧
      read16 page (pd_special page + 12) &&& BTP_META ≠ 0)
  else false

/-! ## Annotation (wxHexNote TAG) emission model -/

/-- The label carried by one emitted TAG.  Fixed-text labels keep the C
string; labels that interpolate decoded data carry that data. -/
inductive Label
  | text (s : String)
  | pdFlagsLabel (mask : Nat)
  | infomaskLabel (mask : Nat)
  | infomask2Label (mask : Nat)
  | lp (len off : Nat) (flags : String)
  | btpoFlagsLabel (mask : Nat)
deriving DecidableEq

/-- One emitted TAG record: id (the run-wide counter value), inclusive
start and end byte offsets, label, note colour. -/
structure Tag where
  id : Nat
  start : Nat
  stop : Nat
  label : Label
  color : String
deriving DecidableEq

/-- The mutable globals the emission protocol touches: the list of TAGs
printed so far, the `tagNumber` counter, and `exitCode`. -/
structure EmitState where
  tags : List Tag
  tagNumber : Nat
  exitCode : Nat
deriving DecidableEq

def COLOR_BLACK : String := "#515A5A"
def COLOR_BLUE_DARK : String := "#2980B9"
def COLOR_BLUE_LIGHT : String := "#3498DB"
def COLOR_BROWN : String := "#97333D"
def COLOR_GREEN_BRIGHT : String := "#50E964"
def COLOR_GREEN_DARK : String := "#16A085"
def COLOR_GREEN_LIGHT : String := "#1ABC9C"
def COLOR_MAROON : String := "#E96950"
def COLOR_PINK : String := "#E949D1"
def COLOR_RED_DARK : String := "#912C21"
def COLOR_RED_LIGHT : String := "#E74C3C"
def COLOR_WHITE : String := "#CCD1D1"
def COLOR_YELLOW_DARK : String := "#F1C40F"
def COLOR_YELLOW_LIGHT : String := "#E9E850"

/-- The shared emission step: print one TAG with id `tagNumber` and
post-increment the counter. -/
def pushTag (start stop : Nat) (label : Label) (color : String)
    (st : EmitState) : EmitState :=
  { st with
    tags := st.tags ++ [⟨st.tagNumber, start, stop, label, color⟩],
    tagNumber := st.tagNumber + 1 }

/-- EmitXmlTag: a block-level tag.  (`blkno` and `level` only feed the
printf'd label prefix.) -/
def EmitXmlTag (blkno level : Nat) (name : Label) (color : String)
    (relfileOff relfileOffEnd : Nat) (st : EmitState) : EmitState :=
  pushTag relfileOff relfileOffEnd name color st

/-- EmitXmlTupleTag: a tuple-field tag.  (`blkno`/`offset` only feed the
printf'd "(blk,off)" label prefix.) -/
def EmitXmlTupleTag (blkno offset : Nat) (name : Label) (color : String)
    (relfileOff relfileOffEnd : Nat) (st : EmitState) : EmitState :=
  pushTag relfileOff relfileOffEnd name color st

/-- EmitXmlItemId: one ItemId (line pointer) tag covering its 4 bytes,
labelled with the decoded lp_len / lp_off / lp_flags. -/
def EmitXmlItemId (blkno offset itemId relfileOff : Nat) (textFlags : String)
    (st : EmitState) : EmitState :=
  pushTag relfileOff (relfileOff + sizeofItemIdData - 1)
    (.lp (lpLen itemId) (lpOff itemId) textFlags) COLOR_BLUE_LIGHT st

/-- GetHeapTupleHeaderFlags: returns the flag label for t_infomask or
t_infomask2 (modelled as the raw mask) and, as a side check, whether the
header length computed from the infomask bits disagrees with the on-disk
t_hoff (which makes the C code set exitCode = 1).  `hbase` is the byte
offset of the HeapTupleHeader within the page: t_infomask2 at +18,
t_infomask at +20, t_hoff at +22, t_bits at +23. -/
def GetHeapTupleHeaderFlags (page : Page) (hbase : Nat) (isInfomask2 : Bool) :
    Label × Bool :=
  let infomask := read16 page (hbase + 20)
  let infomask2 := read16 page (hbase + 18)
  let localHoff := byteAt page (hbase + 22)
  let localBitOffset := 23      -- offsetof(HeapTupleHeaderData, t_bits)
  let bitmapLength :=
    if infomask &&& HEAP_HASNULL ≠ 0 then
      ((infomask2 &&& HEAP_NATTS_MASK) + 7) / 8   -- BITMAPLEN(natts)
    else 0
  let oidLength := if infomask &&& HEAP_HASOID ≠ 0 then 4 else 0
  let computedLength := MAXALIGN (localBitOffset + bitmapLength + oidLength)
  (if isInfomask2 then Label.infomask2Label infomask2
   else Label.infomaskLabel infomask,
   decide (computedLength ≠ localHoff))

def setExit (st : EmitState) : EmitState := { st with exitCode := 1 }

/-- EmitXmlHeapTuple: annotate every field of one heap tuple, then its
opaque contents up to the ItemId's length.  `hbase` is the tuple's byte
offset within the page, `relfileOff` its display offset. -/
def EmitXmlHeapTuple (blkno offset : Nat) (page : Page)
    (hbase relfileOff itemSize : Nat) (st : EmitState) : EmitState :=
  let relfileOffOrig := relfileOff
  let infomask := read16 page (hbase + 20)
  let hoff := byteAt page (hbase + 22)
  let relfileOffNext := relfileOff + 4
  let st := EmitXmlTupleTag blkno offset (.text "xmin") COLOR_RED_LIGHT
    relfileOff (relfileOffNext - 1) st
  let relfileOff := relfileOffNext
  let relfileOffNext := relfileOffNext + 4
  let st := EmitXmlTupleTag blkno offset (.text "xmax") COLOR_RED_LIGHT
    relfileOff (relfileOffNext - 1) st
  let relfileOff := relfileOffNext
  let relfileOffNext := relfileOffNext + 4
  let st :=
    if infomask &&& HEAP_MOVED = 0 then
      EmitXmlTupleTag blkno offset (.text "t_cid") COLOR_RED_DARK
        relfileOff (relfileOffNext - 1) st
    else
      -- pg_upgrade leftover: a t_xvac field instead of t_cid
      EmitXmlTupleTag blkno offset (.text "t_xvac") COLOR_PINK
        relfileOff (relfileOffNext - 1) st
  let relfileOff := relfileOffNext
  let relfileOffNext := relfileOffNext + 2
  let st := EmitXmlTupleTag blkno offset (.text "t_ctid->bi_hi")
    COLOR_BLUE_LIGHT relfileOff (relfileOffNext - 1) st
  let relfileOff := relfileOffNext
  let relfileOffNext := relfileOffNext + 2
  let st := EmitXmlTupleTag blkno offset (.text "t_ctid->bi_lo")
    COLOR_BLUE_LIGHT relfileOff (relfileOffNext - 1) st
  let relfileOff := relfileOffNext
  let relfileOffNext := relfileOffNext + 2
  let st := EmitXmlTupleTag blkno offset (.text "t_ctid->offsetNumber")
    COLOR_BLUE_DARK relfileOff (relfileOffNext - 1) st
  let fl2 := GetHeapTupleHeaderFlags page hbase true
  let st := if fl2.2 then setExit st else st
  let relfileOff := relfileOffNext
  let relfileOffNext := relfileOffNext + 2
  let st := EmitXmlTupleTag blkno offset fl2.1 COLOR_GREEN_LIGHT
    relfileOff (relfileOffNext - 1) st
  let fl1 := GetHeapTupleHeaderFlags page hbase false
  let st := if fl1.2 then setExit st else st
  let relfileOff := relfileOffNext
  let relfileOffNext := relfileOffNext + 2
  let st := EmitXmlTupleTag blkno offset fl1.1 COLOR_GREEN_DARK
    relfileOff (relfileOffNext - 1) st
  let relfileOff := relfileOffNext
  let relfileOffNext := relfileOffNext + 1
  let st := EmitXmlTupleTag blkno offset (.text "t_hoff") COLOR_YELLOW_DARK
    relfileOff (relfileOffNext - 1) st
  -- whatever follows t_hoff up to the header length is the null bitmap
  let relfileOff := relfileOffNext
  let relfileOffNext := relfileOffOrig + hoff
  let st := EmitXmlTupleTag blkno offset (.text "t_bits") COLOR_YELLOW_DARK
    relfileOff (relfileOffNext - 1) st
  let relfileOff := relfileOffNext
  EmitXmlTupleTag blkno offset (.text "contents") COLOR_WHITE
    relfileOff (relfileOffOrig + itemSize - 1) st

/-- EmitXmlIndexTuple: annotate the three TID subfields and t_info of an
IndexTuple, then its contents when IndexTupleSize leaves a non-empty
remainder.  `tbase` is the tuple's byte offset within the page (t_info
at +6). -/
def EmitXmlIndexTuple (blkno offset : Nat) (page : Page)
    (tbase relfileOff : Nat) (st : EmitState) : EmitState :=
  let relfileOffOrig := relfileOff
  let relfileOffNext := relfileOff + 2
  let st := EmitXmlTupleTag blkno offset (.text "t_tid->bi_hi")
    COLOR_BLUE_LIGHT relfileOff (relfileOffNext - 1) st
  let relfileOff := relfileOffNext
  let relfileOffNext := relfileOffNext + 2
  let st := EmitXmlTupleTag blkno offset (.text "t_tid->bi_lo")
    COLOR_BLUE_LIGHT relfileOff (relfileOffNext - 1) st
  let relfileOff := relfileOffNext
  let relfileOffNext := relfileOffNext + 2
  let st := EmitXmlTupleTag blkno offset (.text "t_tid->offsetNumber")
    COLOR_BLUE_DARK relfileOff (relfileOffNext - 1) st
  let relfileOff := relfileOffNext
  let relfileOffNext := relfileOffNext + 2
  let st := EmitXmlTupleTag blkno offset (.text "t_info") COLOR_YELLOW_DARK
    relfileOff (relfileOffNext - 1) st
  -- tuple contents: "minus infinity" items have none
  let relfileOff := relfileOffNext
  let relfileOffNext := relfileOffOrig + (read16 page (tbase + 6) &&& INDEX_SIZE_MASK)
  if relfileOff < relfileOffNext then
    EmitXmlTupleTag blkno offset (.text "contents") COLOR_WHITE
      relfileOff (relfileOffNext - 1) st
  else st

/-! ## Page-level decoders -/

/-- The switch over ItemIdGetFlags in EmitXmlPageHeader's item loop. -/
def lpFlagString (itemId : Nat) : String :=
  if lpFlags itemId = LP_UNUSED then "LP_UNUSED"
  else if lpFlags itemId = LP_NORMAL then "LP_NORMAL"
  else if lpFlags itemId = LP_REDIRECT then "LP_REDIRECT"
  else "LP_DEAD"

/-- The item-directory loop inside EmitXmlPageHeader: one ItemId tag per
slot, at `base + sizeof(ItemIdData) * (slot - 1)` where `base` is
`pageOffset + headerBytes`. -/
def emitItemIdLoop (blkno : Nat) (page : Page) (base : Nat) (ks : List Nat)
    (st : EmitState) : EmitState :=
  match ks with
  | [] => st
  | k :: rest =>
    let itemId := itemIdAt page k
    let st := EmitXmlItemId blkno k itemId
      (base + sizeofItemIdData * (k - 1)) (lpFlagString itemId) st
    emitItemIdLoop blkno page base rest st

/-- EmitXmlPageHeader: annotate the fixed page-header fields, then
either the six BTMetaPageData fields (meta pages) or one tag per ItemId;
report header inconsistencies and checksum mismatches via exitCode.
Returns EOF_ENCOUNTERED when the available bytes do not cover the header
(before the directory: nothing at all is emitted) or the directory.
The checksum computation itself is an external collaborator; only the
boolean comparison outcome `checksumMatches` enters the model. -/
def EmitXmlPageHeader (blockSize bytesToFormat pageOffset : Nat)
    (verifyChecksums checksumMatches : Bool) (page : Page)
    (blkno level : Nat) (st : EmitState) : Int × EmitState :=
  if bytesToFormat < sizeofPageHeaderData then
    -- end of block encountered within the header
    (EOF_ENCOUNTERED, setExit st)
  else
    let maxOffset := PageGetMaxOffsetNumber page
    let blockVersion := PageGetPageLayoutVersion page
    let truncated :=
      0 < maxOffset ∧
        bytesToFormat < sizeofPageHeaderData + maxOffset * sizeofItemIdData
    let headerBytes :=
      if truncated then bytesToFormat else sizeofPageHeaderData
    let st := EmitXmlTag blkno level (.text "LSN") COLOR_YELLOW_LIGHT
      pageOffset (pageOffset + 8 - 1) st
    let st := EmitXmlTag blkno level (.text "checksum") COLOR_GREEN_BRIGHT
      (pageOffset + 8) (pageOffset + 10 - 1) st
    let st := EmitXmlTag blkno level (.pdFlagsLabel (pd_flags page))
      COLOR_YELLOW_DARK (pageOffset + 10) (pageOffset + 12 - 1) st
    let st := EmitXmlTag blkno level (.text "pd_lower") COLOR_MAROON
      (pageOffset + 12) (pageOffset + 14 - 1) st
    let st := EmitXmlTag blkno level (.text "pd_upper") COLOR_MAROON
      (pageOffset + 14) (pageOffset + 16 - 1) st
    let st := EmitXmlTag blkno level (.text "pd_special") COLOR_GREEN_BRIGHT
      (pageOffset + 16) (pageOffset + 18 - 1) st
    let st := EmitXmlTag blkno level (.text "pd_pagesize_version")
      COLOR_BROWN (pageOffset + 18) (pageOffset + 20 - 1) st
    let st := EmitXmlTag blkno level (.text "pd_prune_xid") COLOR_RED_LIGHT
      (pageOffset + 20) (pageOffset + 24 - 1) st
    let st :=
      if IsBtreeMetaPage blockSize bytesToFormat page then
        let metaStartOffset := pageOffset + MAXALIGN SizeOfPageHeaderData
        let st := EmitXmlTag blkno level (.text "btm_magic") COLOR_PINK
          (metaStartOffset + 0) (metaStartOffset + 4 - 1) st
        let st := EmitXmlTag blkno level (.text "btm_version") COLOR_PINK
          (metaStartOffset + 4) (metaStartOffset + 8 - 1) st
        let st := EmitXmlTag blkno level (.text "btm_root") COLOR_PINK
          (metaStartOffset + 8) (metaStartOffset + 12 - 1) st
        let st := EmitXmlTag blkno level (.text "btm_level") COLOR_PINK
          (metaStartOffset + 12) (metaStartOffset + 16 - 1) st
        let st := EmitXmlTag blkno level (.text "btm_fastroot") COLOR_PINK
          (metaStartOffset + 16) (metaStartOffset + 20 - 1) st
        EmitXmlTag blkno level (.text "btm_fastlevel") COLOR_PINK
          (metaStartOffset + 20) (metaStartOffset + 20 + 4 - 1) st
      else
        emitItemIdLoop blkno page (pageOffset + headerBytes)
          (List.range' 1 maxOffset) st
    -- eye the contents of the header and alert the user to problems
    let st :=
      if maxOffset > blockSize ∨ blockVersion ≠ PG_PAGE_LAYOUT_VERSION ∨
          pd_upper page > blockSize ∨ pd_upper page > pd_special page ∨
          pd_lower page < sizeofPageHeaderData - sizeofItemIdData ∨
          pd_lower page > blockSize ∨ pd_upper page < pd_lower page ∨
          pd_special page > blockSize then
        setExit st
      else st
    let st :=
      if verifyChecksums && !checksumMatches then setExit st else st
    if truncated then (EOF_ENCOUNTERED, setExit st) else (0, st)

/-- The `formatChoice` enum. -/
inductive FormatChoice
  | heap
  | index
deriving DecidableEq

/-- The per-item loop of EmitXmlTuples: heap items that would extend
past the block or past the bytes read abort the whole run (modelled as
`Except.error` carrying the exit status); heap items of length zero are
skipped; index items are always decoded. -/
def emitTuplesLoop (blockSize bytesToFormat pageOffset blkno : Nat)
    (page : Page) (formatAs : FormatChoice) (ks : List Nat)
    (st : EmitState) : Except Nat EmitState :=
  match ks with
  | [] => .ok st
  | k :: rest =>
    let itemId := itemIdAt page k
    let itemSize := lpLen itemId
    let itemOffset := lpOff itemId
    if formatAs = FormatChoice.heap ∧
        (itemOffset + itemSize > blockSize ∨
          itemOffset + itemSize > bytesToFormat) then
      -- item contents extend beyond block: exit(1)
      .error 1
    else
      let st :=
        match formatAs with
        | .heap =>
          if itemSize ≠ 0 then
            EmitXmlHeapTuple blkno k page itemOffset
              (pageOffset + itemOffset) itemSize st
          else st
        | .index =>
          EmitXmlIndexTuple blkno k page itemOffset
            (pageOffset + itemOffset) st
      emitTuplesLoop blockSize bytesToFormat pageOffset blkno page formatAs
        rest st

/-- EmitXmlTuples: skip b-tree meta pages; an empty or insane item
directory aborts the run; hash/GiST/GIN/SP-GiST pages abort the run;
b-tree pages use the index-tuple decoder, everything else the heap-tuple
decoder. -/
def EmitXmlTuples (blockSize bytesToFormat pageOffset : Nat)
    (specialType : SpecialSectionType) (blkno : Nat) (page : Page)
    (st : EmitState) : Except Nat EmitState :=
  let maxOffset := PageGetMaxOffsetNumber page
  if IsBtreeMetaPage blockSize bytesToFormat page then
    -- the meta block is where items would normally be; don't print garbage
    .ok st
  else if maxOffset = 0 then
    -- empty block, no items listed: exit(1)
    .error 1
  else if maxOffset > blockSize then
    -- item index corrupt on block: exit(1)
    .error 1
  else
    match specialType with
    | .hash | .gist | .gin | .spgist => .error 1
    | .btree =>
      emitTuplesLoop blockSize bytesToFormat pageOffset blkno page .index
        (List.range' 1 maxOffset) st
    | _ =>
      emitTuplesLoop blockSize bytesToFormat pageOffset blkno page .heap
        (List.range' 1 maxOffset) st

/-- EmitXmlSpecial: fully decode the b-tree special section (btpo_prev,
btpo_next, btpo.level, btpo_flags, btpo_cycleid); classifier errors and
the unsupported families only set the failure exit status. -/
def EmitXmlSpecial (pageOffset : Nat) (specialType : SpecialSectionType)
    (blkno level : Nat) (page : Page) (st : EmitState) : EmitState :=
  let specialOffset := pd_special page
  match specialType with
  | .errUnknown | .errBoundary =>
    -- invalid special section encountered
    setExit st
  | .btree =>
    let st := EmitXmlTag blkno level (.text "btpo_prev") COLOR_BLACK
      (pageOffset + specialOffset + 0) (pageOffset + specialOffset + 4 - 1) st
    let st := EmitXmlTag blkno level (.text "btpo_next") COLOR_BLACK
      (pageOffset + specialOffset + 4) (pageOffset + specialOffset + 8 - 1) st
    let st := EmitXmlTag blkno level (.text "btpo.level") COLOR_BLACK
      (pageOffset + specialOffset + 8) (pageOffset + specialOffset + 12 - 1) st
    let st := EmitXmlTag blkno level
      (.btpoFlagsLabel (read16 page (specialOffset + 12))) COLOR_BLACK
      (pageOffset + specialOffset + 12) (pageOffset + specialOffset + 14 - 1) st
    EmitXmlTag blkno level (.text "btpo_cycleid") COLOR_BLACK
      (pageOffset + specialOffset + 14)
      (pageOffset + specialOffset + 14 + 2 - 1) st
  | .sequence | .hash | .gist | .gin | .spgist =>
    -- unsupported special section type
    setExit st
  | .none => st

/-- Propagate a fatal abort, otherwise apply `f` to the resulting
state. -/
def exceptThen (r : Except Nat EmitState) (f : EmitState → EmitState) :
    Except Nat EmitState :=
  match r with
  | .error e => .error e
  | .ok st2 => .ok (f st2)

/-- EmitXmlPage: classify the page, optionally reduce a non-root b-tree
leaf page to a single whole-page tag, then emit header, items and (when
present) special-section annotations.  A partial read detected in the
header stops this page's decoding but not the run. -/
def EmitXmlPage (blockSize bytesToFormat : Nat)
    (skipLeaf verifyChecksums checksumMatches : Bool) (blkno : Nat)
    (page : Page) (st : EmitState) : Except Nat EmitState :=
  let pageOffset := blockSize * blkno
  let specialType := GetSpecialSectionType blockSize bytesToFormat page
  let sp := pd_special page
  let btpoFlags := read16 page (sp + 12)
  -- only B-Tree tags get a "level" (btpo union at special offset + 8)
  let level :=
    if specialType = SpecialSectionType.btree then read32 page (sp + 8)
    else UINT_MAX
  if specialType = SpecialSectionType.btree ∧ btpoFlags &&& BTP_LEAF ≠ 0 ∧
      btpoFlags &&& BTP_ROOT = 0 ∧ skipLeaf then
    .ok (EmitXmlTag blkno level (.text "leaf page") COLOR_GREEN_DARK
      pageOffset (pageOffset + BLCKSZ - 1) st)
  else
    let hdr := EmitXmlPageHeader blockSize bytesToFormat pageOffset
      verifyChecksums checksumMatches page blkno level st
    if hdr.1 ≠ EOF_ENCOUNTERED then
      exceptThen
        (EmitXmlTuples blockSize bytesToFormat pageOffset specialType
          blkno page hdr.2)
        (fun st2 =>
          if specialType ≠ SpecialSectionType.none then
            EmitXmlSpecial pageOffset specialType blkno level page st2
          else st2)
    else .ok hdr.2

/-- The block loop of EmitXmlFile: the raw block reads are an external
collaborator, so a run is modelled as the list of (page, bytesRead)
pairs the reads produced, processed in order with the block number
counting up; a fatal abort (exit) stops the remaining blocks. -/
def EmitXmlFileLoop (blockSize : Nat)
    (skipLeaf verifyChecksums : Bool) (checksumMatches : Nat → Bool)
    (blkno : Nat) (blocks : List (Page × Nat)) (st : EmitState) :
    Except Nat EmitState :=
  match blocks with
  | [] => .ok st
  | (page, bytesToFormat) :: rest =>
    Except.bind
      (EmitXmlPage blockSize bytesToFormat skipLeaf verifyChecksums
        (checksumMatches blkno) blkno page st)
      (fun st' =>
        EmitXmlFileLoop blockSize skipLeaf verifyChecksums checksumMatches
          (blkno + 1) rest st')

/-- Project the tags of a (possibly aborted) run; an aborted process
prints no further output. -/
def resultTags : Except Nat EmitState → List Tag
  | .ok st => st.tags
  | .error _ => []

/-- The eight fixed page-header annotations EmitXmlPageHeader emits,
with ids starting at `n`. -/
def headerFixedTags (page : Page) (pageOffset n : Nat) : List Tag :=
  [⟨n, pageOffset, pageOffset + 8 - 1, .text "LSN", COLOR_YELLOW_LIGHT⟩,
   ⟨n + 1, pageOffset + 8, pageOffset + 10 - 1, .text "checksum",
     COLOR_GREEN_BRIGHT⟩,
   ⟨n + 2, pageOffset + 10, pageOffset + 12 - 1,
     .pdFlagsLabel (pd_flags page), COLOR_YELLOW_DARK⟩,
   ⟨n + 3, pageOffset + 12, pageOffset + 14 - 1, .text "pd_lower",
     COLOR_MAROON⟩,
   ⟨n + 4, pageOffset + 14, pageOffset + 16 - 1, .text "pd_upper",
     COLOR_MAROON⟩,
   ⟨n + 5, pageOffset + 16, pageOffset + 18 - 1, .text "pd_special",
     COLOR_GREEN_BRIGHT⟩,
   ⟨n + 6, pageOffset + 18, pageOffset + 20 - 1, .text "pd_pagesize_version",
     COLOR_BROWN⟩,
   ⟨n + 7, pageOffset + 20, pageOffset + 24 - 1, .text "pd_prune_xid",
     COLOR_RED_LIGHT⟩]

/-- The six BTMetaPageData annotations (magic, version, root, level,
fast-root, fast-level), with ids starting at `n`; the meta struct sits
right after the (MAXALIGNed) page header. -/
def btreeMetaTags (pageOffset n : Nat) : List Tag :=
  [⟨n, pageOffset + 24, pageOffset + 27, .text "btm_magic", COLOR_PINK⟩,
   ⟨n + 1, pageOffset + 28, pageOffset + 31, .text "btm_version", COLOR_PINK⟩,
   ⟨n + 2, pageOffset + 32, pageOffset + 35, .text "btm_root", COLOR_PINK⟩,
   ⟨n + 3, pageOffset + 36, pageOffset + 39, .text "btm_level", COLOR_PINK⟩,
   ⟨n + 4, pageOffset + 40, pageOffset + 43, .text "btm_fastroot",
     COLOR_PINK⟩,
   ⟨n + 5, pageOffset + 44, pageOffset + 47, .text "btm_fastlevel",
     COLOR_PINK⟩]

/-- The annotation-emission contract delta between two states: the later
state appends some tags, numbered consecutively from the earlier state's
counter, and advances the counter by exactly that many. -/
def SeqEmits (st st' : EmitState) : Prop :=
  ∃ d, st'.tags = st.tags ++ d ∧ st'.tagNumber = st.tagNumber + d.length ∧
    d.map Tag.id = List.range' st.tagNumber d.length

/-- The tags the item-directory loop appends, with ids from `n`. -/
def itemIdTags (page : Page) (base : Nat) (ks : List Nat) (n : Nat) :
    List Tag :=
  match ks with
  | [] => []
  | k :: rest =>
    ⟨n, base + sizeofItemIdData * (k - 1),
      base + sizeofItemIdData * (k - 1) + sizeofItemIdData - 1,
      .lp (lpLen (itemIdAt page k)) (lpOff (itemIdAt page k))
        (lpFlagString (itemIdAt page k)), COLOR_BLUE_LIGHT⟩ ::
      itemIdTags page base rest (n + 1)

/-- The "emitted in non-decreasing start-offset order" relation. -/
def tagStartLE (a b : Tag) : Prop := a.start ≤ b.start

instance : DecidableRel tagStartLE := fun a b => Nat.decLe a.start b.start

/-- Executable check that a tag list has non-decreasing start offsets
(boolean counterpart of `List.Chain' tagStartLE`). -/
def chainStartLE : List Tag → Bool
  | [] => true
  | [_] => true
  | a :: b :: l => decide (a.start ≤ b.start) && chainStartLE (b :: l)

/-! ## Concrete pages used as witnesses and counterexamples -/

/-- A concrete fully read 8192-byte page with an 8-byte special section
holding the sequence magic (pd_special = 8184, bytes 0x17 0x17 there). -/
def c1SeqPage : Page := fun i =>
  if i = 16 then 248 else if i = 17 then 31
  else if i = 8184 then 23 else if i = 8185 then 23
  else 0

/-- An all-zero buffer. -/
def zeroPage : Page := fun _ => 0

/-- A page holding the spec's C6 scenario tuple: a heap tuple at byte
offset 100 with t_hoff = 24 (t_hoff lives at 100 + 22) and all flag
words zero, decoded from a slot of declared length 40. -/
def c6Page : Page := fun i => if i = 122 then 24 else 0

/-- A page holding an index tuple at byte offset 0 whose t_info (at
byte 6) declares IndexTupleSize = 8, i.e. a header-only entry with a
zero-length payload ("minus infinity" item). -/
def c7Page : Page := fun i => if i = 6 then 8 else 0

/-- A concrete b-tree meta page: pd_special = 8176, page size word
0x2004, cycle id 0, btpo_flags = BTP_META (byte 8188), pd_lower = 0. -/
def c5MetaPage : Page := fun i =>
  if i = 16 then 240 else if i = 17 then 31
  else if i = 18 then 4 else if i = 19 then 32
  else if i = 8188 then 8
  else 0

/-- A well-formed 8192-byte hash-index page: pd_special = 8176 (16-byte
special section), pd_pagesize_version = 0x2004, pd_lower = 28 (one
slot), last two bytes = HASHO_PAGE_ID (0xFF80). -/
def c3HashPage : Page := fun i =>
  if i = 12 then 28
  else if i = 16 then 240 else if i = 17 then 31
  else if i = 18 then 4 else if i = 19 then 32
  else if i = 8190 then 128 else if i = 8191 then 255
  else 0

/-- An 8192-byte b-tree page (pd_special = 8176, cycle id 0, flags 0)
whose single ItemId declares lp_off = 8000, lp_len = 4000, LP_NORMAL:
the item extends 3808 bytes past the end of the block. -/
def c4BtPage : Page := fun i =>
  if i = 12 then 28
  else if i = 16 then 240 else if i = 17 then 31
  else if i = 18 then 4 else if i = 19 then 32
  else if i = 24 then 64 else if i = 25 then 159
  else if i = 26 then 64 else if i = 27 then 31
  else 0

/-- A heap page (no special section: pd_special = 8192) with two
Normal slots whose stored offsets run backwards (slot 1 at byte 200,
slot 2 at byte 100, each of length 40, t_hoff 24), as PostgreSQL
actually lays tuples out (top-down while slots count up). -/
def c2Page : Page := fun i =>
  if i = 12 then 32
  else if i = 16 then 0 else if i = 17 then 32
  else if i = 24 then 200 else if i = 25 then 128 else if i = 26 then 80
  else if i = 28 then 100 else if i = 29 then 128 else if i = 30 then 80
  else if i = 122 then 24 else if i = 222 then 24
  else 0

/-- A heap page (no special section: pd_special = 8192) with three
slots: slot 1 LP_NORMAL (off 200, len 40), slot 2 LP_DEAD (off 100,
len 40), slot 3 LP_REDIRECT (off 50, len 0); both tuples carry
t_hoff = 24. -/
def c10Page : Page := fun i =>
  if i = 12 then 36
  else if i = 16 then 0 else if i = 17 then 32
  else if i = 24 then 200 else if i = 25 then 128 else if i = 26 then 80
  else if i = 28 then 100 else if i = 29 then 128 else if i = 30 then 81
  else if i = 32 then 50 else if i = 34 then 1
  else if i = 122 then 24 else if i = 222 then 24
  else 0

instance : DecidableEq (Except Nat EmitState) := fun a b =>
  match a, b with
  | .error x, .error y =>
    if h : x = y then isTrue (by rw [h])
    else isFalse (fun hc => h (by cases hc; rfl))
  | .ok x, .ok y =>
    if h : x = y then isTrue (by rw [h])
    else isFalse (fun hc => h (by cases hc; rfl))
  | .error _, .ok _ => isFalse fun hc => Except.noConfusion hc
  | .ok _, .error _ => isFalse fun hc => Except.noConfusion hc

/-! # Claim theorems: classifier -/

/-- Helper: MAXALIGN of the SP-GiST opaque size is 8. -/
theorem MAXALIGN_spgist_eq : MAXALIGN sizeofSpGistPageOpaqueData = 8 := rfl

/-- Helper: MAXALIGN of the GIN opaque size is 8. -/
theorem MAXALIGN_gin_eq : MAXALIGN sizeofGinPageOpaqueData = 8 := rfl

/-- **C1.** On a fully read page whose special-section size is
MAXALIGN(4), the classifier tries, in order: the 4 bytes at the special
offset against the sequence magic; the trailing 2 bytes against the
SP-GiST page id together with that family's opaque size; the GIN opaque
size; and otherwise reports UnknownError.  (The hypothesis
`sizeofPageHeaderData < blockSize` states that a block is at least big
enough to hold its own page header, which every real page satisfies;
without it the classifier cannot even read the declared special
offset.) -/
theorem maxalign4_ambiguous_classification
    (blockSize bytesToFormat : Nat) (page : Page)
    (hbs : sizeofPageHeaderData < blockSize)
    (hfull : bytesToFormat = blockSize)
    (hsz : blockSize - pd_special page = MAXALIGN 4) :
    GetSpecialSectionType blockSize bytesToFormat page =
      (if read32 page (pd_special page) = SEQUENCE_MAGIC then
        SpecialSectionType.sequence
      else if read16 page (blockSize - 2) = SPGIST_PAGE_ID ∧
          blockSize - pd_special page = MAXALIGN sizeofSpGistPageOpaqueData then
        SpecialSectionType.spgist
      else if blockSize - pd_special page = MAXALIGN sizeofGinPageOpaqueData then
        SpecialSectionType.gin
      else SpecialSectionType.errUnknown) := by
  subst hfull
  have hma : MAXALIGN 4 = 8 := rfl
  rw [hma] at hsz
  have h24 : (24 : Nat) < bytesToFormat := hbs
  have hlt : pd_special page < bytesToFormat := by omega
  have hne : ¬(pd_special page = 0 ∨ pd_special page > bytesToFormat ∨
      pd_special page > bytesToFormat) := by omega
  unfold GetSpecialSectionType
  rw [if_pos (show bytesToFormat > sizeofPageHeaderData from h24), if_neg hne,
    if_neg (show ¬bytesToFormat - pd_special page = 0 by omega),
    if_pos (show bytesToFormat - pd_special page = MAXALIGN 4 by rw [hma]; exact hsz),
    if_pos rfl]
  by_cases hmg : read32 page (pd_special page) = SEQUENCE_MAGIC
  · simp [hmg]
  · by_cases hpt : read16 page (bytesToFormat - 2) = SPGIST_PAGE_ID
    · simp [hmg, hpt, hsz, MAXALIGN_spgist_eq]
    · simp [hmg, hpt, hsz, MAXALIGN_spgist_eq, MAXALIGN_gin_eq]

theorem maxalign4_ambiguous_classification_witness :
    GetSpecialSectionType 8192 8192 c1SeqPage = SpecialSectionType.sequence := by
  have h := maxalign4_ambiguous_classification 8192 8192 c1SeqPage
    (by decide) rfl (by decide)
  rw [h]
  decide

/-- **C8.** The classifier's boundary checks: with more than a header's
worth of bytes available, a declared special offset of 0, or beyond the
page size, or beyond the bytes available, is a BoundaryError; with at
most a header's worth available the result is UnknownError. -/
theorem classifier_boundary_and_unknown
    (blockSize bytesToFormat : Nat) (page : Page) :
    (sizeofPageHeaderData < bytesToFormat →
      (pd_special page = 0 ∨ pd_special page > blockSize ∨
        pd_special page > bytesToFormat) →
      GetSpecialSectionType blockSize bytesToFormat page =
        SpecialSectionType.errBoundary) ∧
    (bytesToFormat ≤ sizeofPageHeaderData →
      GetSpecialSectionType blockSize bytesToFormat page =
        SpecialSectionType.errUnknown) := by
  constructor
  · intro h hbad
    unfold GetSpecialSectionType
    rw [if_pos h, if_pos hbad]
  · intro h
    unfold GetSpecialSectionType
    rw [if_neg (by omega)]

theorem classifier_boundary_and_unknown_witness :
    GetSpecialSectionType 8192 30 zeroPage = SpecialSectionType.errBoundary ∧
    GetSpecialSectionType 8192 10 zeroPage = SpecialSectionType.errUnknown :=
  ⟨(classifier_boundary_and_unknown 8192 30 zeroPage).1 (by decide)
      (Or.inl (by decide)),
   (classifier_boundary_and_unknown 8192 10 zeroPage).2 (by decide)⟩

/-! # Claim theorems: tuple decoders -/

/-- **C6.** The heap-tuple decoder's final annotation is always the
"contents" tag and it ends exactly at the slot's display offset plus the
slot's declared length minus one (first conjunct, for every tuple); and
on the spec's concrete scenario — a Normal slot of length 40 at offset
100 with a 24-byte header and no null bitmap — the header-field tags
cover bytes 100..123 and the contents tag covers 124..139 (second
conjunct, listing the full output). -/
theorem heap_tuple_contents_end :
    (∀ (blkno offset : Nat) (page : Page) (hbase relfileOff itemSize : Nat)
      (st : EmitState),
      (EmitXmlHeapTuple blkno offset page hbase relfileOff itemSize st).tags.getLast? =
        some ⟨st.tagNumber + 10, relfileOff + byteAt page (hbase + 22),
          relfileOff + itemSize - 1, .text "contents", COLOR_WHITE⟩) ∧
    EmitXmlHeapTuple 0 1 c6Page 100 100 40 ⟨[], 0, 0⟩ =
      ⟨[⟨0, 100, 103, .text "xmin", COLOR_RED_LIGHT⟩,
        ⟨1, 104, 107, .text "xmax", COLOR_RED_LIGHT⟩,
        ⟨2, 108, 111, .text "t_cid", COLOR_RED_DARK⟩,
        ⟨3, 112, 113, .text "t_ctid->bi_hi", COLOR_BLUE_LIGHT⟩,
        ⟨4, 114, 115, .text "t_ctid->bi_lo", COLOR_BLUE_LIGHT⟩,
        ⟨5, 116, 117, .text "t_ctid->offsetNumber", COLOR_BLUE_DARK⟩,
        ⟨6, 118, 119, .infomask2Label 0, COLOR_GREEN_LIGHT⟩,
        ⟨7, 120, 121, .infomaskLabel 0, COLOR_GREEN_DARK⟩,
        ⟨8, 122, 122, .text "t_hoff", COLOR_YELLOW_DARK⟩,
        ⟨9, 123, 123, .text "t_bits", COLOR_YELLOW_DARK⟩,
        ⟨10, 124, 139, .text "contents", COLOR_WHITE⟩], 11, 0⟩ := by
  constructor
  · intro blkno offset page hbase relfileOff itemSize st
    unfold EmitXmlHeapTuple EmitXmlTupleTag
    dsimp only
    split_ifs <;> simp [pushTag, setExit, List.getLast?_concat]
  · decide

/-- **C7 counterexample.**  A header-only index entry (t_info declares
IndexTupleSize = 8, so the payload length is zero) produces four
annotations — the three TID subfields plus t_info — not the two the
claim states; and indeed none of them is a contents annotation. -/
theorem index_zero_payload_tag_count_cex :
    read16 c7Page 6 &&& INDEX_SIZE_MASK = 8 ∧
    (EmitXmlIndexTuple 0 1 c7Page 0 0 ⟨[], 0, 0⟩).tags.length ≠ 2 ∧
    (EmitXmlIndexTuple 0 1 c7Page 0 0 ⟨[], 0, 0⟩).tags.length = 4 ∧
    ∀ t ∈ (EmitXmlIndexTuple 0 1 c7Page 0 0 ⟨[], 0, 0⟩).tags,
      t.label ≠ .text "contents" := by
  decide

/-- **C7 (amended).**  For every index entry whose size/flags field
yields a payload length of zero (IndexTupleSize at most the 8-byte
IndexTuple header), the decoder emits exactly four annotations — the
three compressed-tuple-pointer subfields and the size/flags field — and
no contents annotation. -/
theorem index_zero_payload_four_tags
    (blkno offset : Nat) (page : Page) (tbase relfileOff : Nat)
    (st : EmitState)
    (h : read16 page (tbase + 6) &&& INDEX_SIZE_MASK ≤ 8) :
    (EmitXmlIndexTuple blkno offset page tbase relfileOff st).tags =
      st.tags ++
        [⟨st.tagNumber, relfileOff, relfileOff + 1, .text "t_tid->bi_hi",
          COLOR_BLUE_LIGHT⟩,
        ⟨st.tagNumber + 1, relfileOff + 2, relfileOff + 3, .text "t_tid->bi_lo",
          COLOR_BLUE_LIGHT⟩,
        ⟨st.tagNumber + 2, relfileOff + 4, relfileOff + 5,
          .text "t_tid->offsetNumber", COLOR_BLUE_DARK⟩,
        ⟨st.tagNumber + 3, relfileOff + 6, relfileOff + 7, .text "t_info",
          COLOR_YELLOW_DARK⟩] := by
  unfold EmitXmlIndexTuple EmitXmlTupleTag
  dsimp only
  rw [if_neg (by omega)]
  simp [pushTag]

theorem index_zero_payload_four_tags_witness :
    (EmitXmlIndexTuple 0 1 c7Page 0 0 ⟨[], 0, 0⟩).tags =
      [⟨0, 0, 1, .text "t_tid->bi_hi", COLOR_BLUE_LIGHT⟩,
       ⟨1, 2, 3, .text "t_tid->bi_lo", COLOR_BLUE_LIGHT⟩,
       ⟨2, 4, 5, .text "t_tid->offsetNumber", COLOR_BLUE_DARK⟩,
       ⟨3, 6, 7, .text "t_info", COLOR_YELLOW_DARK⟩] := by
  rw [index_zero_payload_four_tags 0 1 c7Page 0 0 ⟨[], 0, 0⟩ (by decide)]
  decide

/-! # Helper lemmas on the emission state -/

theorem setExit_tags (st : EmitState) : (setExit st).tags = st.tags := rfl

theorem setExit_tagNumber (st : EmitState) :
    (setExit st).tagNumber = st.tagNumber := rfl

theorem ite_setExit_tags (c : Prop) [Decidable c] (st : EmitState) :
    (if c then setExit st else st).tags = st.tags := by
  split <;> rfl

theorem ite_pair_snd_tags (c : Prop) [Decidable c] (a b : Int)
    (s : EmitState) :
    ((if c then (a, setExit s) else (b, s)).2).tags = s.tags := by
  split <;> rfl

/-! # Claim theorems: page header and page pipeline -/

/-- **C9.** When fewer bytes are available than the header (before the
item directory) needs, the page contributes no annotations at all: the
header decoder reports the truncation via exitCode = 1 and EOF, and the
page pipeline then skips tuples and the special section, returning
normally (`.ok`, so the block loop continues with the next page). -/
theorem truncated_header_page
    (blockSize bytesToFormat : Nat)
    (skipLeaf verifyChecksums checksumMatches : Bool) (blkno : Nat)
    (page : Page) (st : EmitState)
    (h : bytesToFormat < sizeofPageHeaderData) :
    EmitXmlPage blockSize bytesToFormat skipLeaf verifyChecksums
      checksumMatches blkno page st = .ok { st with exitCode := 1 } := by
  have hcl : GetSpecialSectionType blockSize bytesToFormat page =
      SpecialSectionType.errUnknown := by
    unfold GetSpecialSectionType
    rw [if_neg (by unfold sizeofPageHeaderData at h ⊢; omega)]
  unfold EmitXmlPage EmitXmlPageHeader
  dsimp only
  rw [hcl, if_pos h]
  simp [setExit]

theorem truncated_header_page_witness :
    EmitXmlPage 8192 16 false false false 0 zeroPage ⟨[], 0, 0⟩ =
      .ok ⟨[], 0, 1⟩ :=
  truncated_header_page 8192 16 false false false 0 zeroPage ⟨[], 0, 0⟩
    (by decide)

/-- **C5.** A fully read page whose special section has the b-tree
opaque size, a valid cycle id and the meta flag set is decoded as a
b-tree meta page no matter what pd_lower/pd_upper hold: the header
decoder emits exactly the eight fixed header tags followed by the six
BTMetaPageData field tags (so no ItemId tags), and the tuple decoder
emits nothing for such a page. -/
theorem btree_meta_page_routing
    (blockSize bytesToFormat pageOffset : Nat)
    (verifyChecksums checksumMatches : Bool) (blkno level : Nat)
    (page : Page) (st : EmitState)
    (hfull : bytesToFormat = blockSize)
    (hbs : sizeofPageHeaderData ≤ blockSize)
    (hsize : PageGetSpecialSize page = MAXALIGN sizeofBTPageOpaqueData)
    (hcyc : read16 page (pd_special page + 14) ≤ MAX_BT_CYCLE_ID)
    (hmeta : read16 page (pd_special page + 12) &&& BTP_META ≠ 0) :
    (EmitXmlPageHeader blockSize bytesToFormat pageOffset verifyChecksums
        checksumMatches page blkno level st).2.tags =
      st.tags ++ headerFixedTags page pageOffset st.tagNumber ++
        btreeMetaTags pageOffset (st.tagNumber + 8) ∧
    ∀ (pageOffset2 blkno2 : Nat)
      (specialType : SpecialSectionType) (st2 : EmitState),
      EmitXmlTuples blockSize bytesToFormat pageOffset2 specialType blkno2
        page st2 = .ok st2 := by
  have hm : IsBtreeMetaPage blockSize bytesToFormat page = true := by
    unfold IsBtreeMetaPage
    rw [if_pos ⟨hsize, hfull⟩]
    exact decide_eq_true ⟨hcyc, hmeta⟩
  constructor
  · unfold EmitXmlPageHeader EmitXmlTag
    rw [if_neg (by unfold sizeofPageHeaderData at hbs ⊢; omega)]
    dsimp only
    rw [hm]
    rw [ite_pair_snd_tags, ite_setExit_tags, ite_setExit_tags]
    simp [pushTag, headerFixedTags, btreeMetaTags, MAXALIGN,
      SizeOfPageHeaderData]
  · intro pageOffset2 blkno2 specialType st2
    unfold EmitXmlTuples
    dsimp only
    rw [hm]
    simp

theorem btree_meta_page_routing_witness :
    (EmitXmlPageHeader 8192 8192 0 false false c5MetaPage 0 UINT_MAX
        ⟨[], 0, 0⟩).2.tags =
      headerFixedTags c5MetaPage 0 0 ++ btreeMetaTags 0 8 ∧
    EmitXmlTuples 8192 8192 0 SpecialSectionType.none 0 c5MetaPage
      ⟨[], 5, 0⟩ = .ok ⟨[], 5, 0⟩ := by
  have h := btree_meta_page_routing 8192 8192 0 false false 0 UINT_MAX
    c5MetaPage ⟨[], 0, 0⟩ rfl (by decide) (by decide) (by decide) (by decide)
  exact ⟨by simpa using h.1, h.2 0 0 SpecialSectionType.none ⟨[], 5, 0⟩⟩

/-! # Claim theorems: error handling of special-section families -/

/-- **C3 counterexample.**  A well-formed hash-index page does *not*
lead to a reported-but-non-fatal condition: the tuple decoding stage
calls exit(1), aborting the whole run before any unsupported-family
report, contradicting "continues the run without crashing or
aborting". -/
theorem unsupported_family_abort_cex :
    GetSpecialSectionType 8192 8192 c3HashPage = SpecialSectionType.hash ∧
    EmitXmlPage 8192 8192 false false false 0 c3HashPage ⟨[], 0, 0⟩ =
      .error 1 := by
  constructor
  · decide
  · decide

/-- **C3 (amended).**  Only the Sequence family behaves as the claim
says: EmitXmlSpecial reports any of the five unsupported families by
setting the failure exit status while emitting no annotations and
returning normally; but a page classified Hash, GiST, GIN or SP-GiST
(and not mistaken for a b-tree meta page) makes the tuple-decoding stage
abort the entire run with exit status 1, so only Sequence pages actually
continue. -/
theorem unsupported_family_report_or_abort :
    (∀ (pageOffset blkno level : Nat) (page : Page) (st : EmitState)
       (specialType : SpecialSectionType),
      (specialType = SpecialSectionType.sequence ∨
        specialType = SpecialSectionType.hash ∨
        specialType = SpecialSectionType.gist ∨
        specialType = SpecialSectionType.gin ∨
        specialType = SpecialSectionType.spgist) →
      EmitXmlSpecial pageOffset specialType blkno level page st =
        { st with exitCode := 1 }) ∧
    (∀ (blockSize bytesToFormat pageOffset blkno : Nat) (page : Page)
       (st : EmitState) (specialType : SpecialSectionType),
      IsBtreeMetaPage blockSize bytesToFormat page = false →
      (specialType = SpecialSectionType.hash ∨
        specialType = SpecialSectionType.gist ∨
        specialType = SpecialSectionType.gin ∨
        specialType = SpecialSectionType.spgist) →
      EmitXmlTuples blockSize bytesToFormat pageOffset specialType blkno
        page st = .error 1) := by
  constructor
  · intro pageOffset blkno level page st specialType hmem
    rcases hmem with rfl | rfl | rfl | rfl | rfl <;> rfl
  · intro blockSize bytesToFormat pageOffset blkno page st specialType
      hmeta hmem
    unfold EmitXmlTuples
    dsimp only
    rw [hmeta]
    by_cases h0 : PageGetMaxOffsetNumber page = 0
    · simp [h0]
    · by_cases h1 : PageGetMaxOffsetNumber page > blockSize
      · simp [h0, h1]
      · rcases hmem with rfl | rfl | rfl | rfl <;> simp [h0, h1]

theorem unsupported_family_report_or_abort_witness :
    EmitXmlSpecial 0 SpecialSectionType.sequence 0 UINT_MAX zeroPage
      ⟨[], 3, 0⟩ = ⟨[], 3, 1⟩ ∧
    EmitXmlTuples 8192 8192 0 SpecialSectionType.hash 0 c3HashPage
      ⟨[], 0, 0⟩ = .error 1 :=
  ⟨unsupported_family_report_or_abort.1 0 0 UINT_MAX zeroPage ⟨[], 3, 0⟩
      SpecialSectionType.sequence (Or.inl rfl),
   unsupported_family_report_or_abort.2 8192 8192 0 0 c3HashPage ⟨[], 0, 0⟩
      SpecialSectionType.hash (by decide) (Or.inl rfl)⟩

/-! # Claim theorems: structural corruption -/

/-- Helper: the heap-format item loop aborts as soon as some listed item
would extend past the block or past the bytes actually read. -/
theorem emitTuplesLoop_overflow_error
    (blockSize bytesToFormat pageOffset blkno : Nat) (page : Page)
    (ks : List Nat) (st : EmitState)
    (h : ∃ k ∈ ks,
      blockSize < lpOff (itemIdAt page k) + lpLen (itemIdAt page k) ∨
      bytesToFormat < lpOff (itemIdAt page k) + lpLen (itemIdAt page k)) :
    emitTuplesLoop blockSize bytesToFormat pageOffset blkno page
      FormatChoice.heap ks st = .error 1 := by
  induction ks generalizing st with
  | nil => simp at h
  | cons k rest ih =>
    unfold emitTuplesLoop
    dsimp only
    by_cases hk :
        blockSize < lpOff (itemIdAt page k) + lpLen (itemIdAt page k) ∨
        bytesToFormat < lpOff (itemIdAt page k) + lpLen (itemIdAt page k)
    · rw [if_pos ⟨rfl, by omega⟩]
    · rw [if_neg (by rintro ⟨-, hov⟩; omega)]
      apply ih
      rcases h with ⟨j, hj, hover⟩
      rcases List.mem_cons.1 hj with rfl | hjr
      · exact absurd hover hk
      · exact ⟨j, hjr, hover⟩

/-- Helper: the heap-format item loop, when every listed item fits,
decodes exactly the nonzero-length items via the heap-tuple decoder. -/
theorem emitTuplesLoop_heap_ok
    (blockSize bytesToFormat pageOffset blkno : Nat) (page : Page)
    (ks : List Nat) (st : EmitState)
    (hfit : ∀ k ∈ ks,
      lpOff (itemIdAt page k) + lpLen (itemIdAt page k) ≤ blockSize ∧
      lpOff (itemIdAt page k) + lpLen (itemIdAt page k) ≤ bytesToFormat) :
    emitTuplesLoop blockSize bytesToFormat pageOffset blkno page
      FormatChoice.heap ks st =
      .ok (List.foldl
        (fun s k =>
          if lpLen (itemIdAt page k) ≠ 0 then
            EmitXmlHeapTuple blkno k page (lpOff (itemIdAt page k))
              (pageOffset + lpOff (itemIdAt page k))
              (lpLen (itemIdAt page k)) s
          else s)
        st ks) := by
  induction ks generalizing st with
  | nil => rfl
  | cons k rest ih =>
    have hk := hfit k (by simp)
    unfold emitTuplesLoop
    dsimp only
    rw [if_neg (by rintro ⟨-, hov⟩; omega)]
    rw [List.foldl_cons]
    exact ih _ fun j hj => hfit j (List.mem_cons_of_mem _ hj)

/-- Helper: with heap formatting selected (the special type is none of
the four aborting index families and not b-tree) and the directory sane,
EmitXmlTuples is exactly the heap item loop. -/
theorem EmitXmlTuples_heap_red
    (blockSize bytesToFormat pageOffset blkno : Nat) (page : Page)
    (st : EmitState) (specialType : SpecialSectionType)
    (hmeta : IsBtreeMetaPage blockSize bytesToFormat page = false)
    (hh : specialType ≠ SpecialSectionType.hash)
    (hg : specialType ≠ SpecialSectionType.gist)
    (hn : specialType ≠ SpecialSectionType.gin)
    (hs : specialType ≠ SpecialSectionType.spgist)
    (hb : specialType ≠ SpecialSectionType.btree)
    (h0 : PageGetMaxOffsetNumber page ≠ 0)
    (h1 : ¬PageGetMaxOffsetNumber page > blockSize) :
    EmitXmlTuples blockSize bytesToFormat pageOffset specialType blkno
        page st =
      emitTuplesLoop blockSize bytesToFormat pageOffset blkno page
        FormatChoice.heap (List.range' 1 (PageGetMaxOffsetNumber page))
        st := by
  unfold EmitXmlTuples
  dsimp only
  rw [hmeta, if_neg Bool.false_ne_true, if_neg h0, if_neg h1]
  cases specialType
  case hash => exact absurd rfl hh
  case gist => exact absurd rfl hg
  case gin => exact absurd rfl hn
  case spgist => exact absurd rfl hs
  case btree => exact absurd rfl hb
  all_goals rfl

/-- **C4 counterexample.**  On an index-format (b-tree) page the
"item extends past the block" check is skipped: a b-tree page whose only
item claims lp_off = 8000, lp_len = 4000 (extending 3808 bytes past the
8192-byte block and past the bytes read) is decoded normally and the run
does not abort, contradicting the claim that any such item is fatal. -/
theorem item_overflow_no_abort_cex :
    GetSpecialSectionType 8192 8192 c4BtPage = SpecialSectionType.btree ∧
    8192 < lpOff (itemIdAt c4BtPage 1) + lpLen (itemIdAt c4BtPage 1) ∧
    EmitXmlTuples 8192 8192 0 SpecialSectionType.btree 0 c4BtPage
        ⟨[], 0, 0⟩ =
      .ok ⟨[⟨0, 8000, 8001, .text "t_tid->bi_hi", COLOR_BLUE_LIGHT⟩,
           ⟨1, 8002, 8003, .text "t_tid->bi_lo", COLOR_BLUE_LIGHT⟩,
           ⟨2, 8004, 8005, .text "t_tid->offsetNumber", COLOR_BLUE_DARK⟩,
           ⟨3, 8006, 8007, .text "t_info", COLOR_YELLOW_DARK⟩], 4, 0⟩ := by
  refine ⟨by decide, by decide, by decide⟩

/-- **C4 (amended).**  On every page that is not routed to b-tree meta
decoding, an empty item directory aborts the run with exit status 1,
whatever special-section family the page was classified into (first
conjunct: the "Empty block" exit runs before the format switch); and on
pages whose items are decoded with the heap-tuple format, any listed
item whose declared offset plus declared length extends past the block
size or past the bytes actually read also aborts the run (second
conjunct); on index-format (b-tree) pages the overflow check is
deliberately skipped. -/
theorem structural_corruption_aborts
    (blockSize bytesToFormat pageOffset blkno : Nat) (page : Page)
    (st : EmitState) (specialType : SpecialSectionType)
    (hmeta : IsBtreeMetaPage blockSize bytesToFormat page = false) :
    (PageGetMaxOffsetNumber page = 0 →
      EmitXmlTuples blockSize bytesToFormat pageOffset specialType blkno
        page st = .error 1) ∧
    ((specialType ≠ SpecialSectionType.hash ∧
        specialType ≠ SpecialSectionType.gist ∧
        specialType ≠ SpecialSectionType.gin ∧
        specialType ≠ SpecialSectionType.spgist ∧
        specialType ≠ SpecialSectionType.btree) →
      (∃ k ∈ List.range' 1 (PageGetMaxOffsetNumber page),
        blockSize < lpOff (itemIdAt page k) + lpLen (itemIdAt page k) ∨
        bytesToFormat < lpOff (itemIdAt page k) + lpLen (itemIdAt page k)) →
      EmitXmlTuples blockSize bytesToFormat pageOffset specialType blkno
        page st = .error 1) := by
  constructor
  · intro h0
    unfold EmitXmlTuples
    dsimp only
    rw [hmeta]
    simp [h0]
  · intro hheap hover
    obtain ⟨hh, hg, hn, hs, hb⟩ := hheap
    by_cases h0 : PageGetMaxOffsetNumber page = 0
    · unfold EmitXmlTuples
      dsimp only
      rw [hmeta]
      simp [h0]
    · by_cases h1 : PageGetMaxOffsetNumber page > blockSize
      · unfold EmitXmlTuples
        dsimp only
        rw [hmeta]
        simp [h0, h1]
      · rw [EmitXmlTuples_heap_red blockSize bytesToFormat pageOffset blkno
          page st specialType hmeta hh hg hn hs hb h0 h1]
        exact emitTuplesLoop_overflow_error _ _ _ _ _ _ _ hover

theorem structural_corruption_aborts_witness :
    EmitXmlTuples 8192 8192 0 SpecialSectionType.btree 0 zeroPage
      ⟨[], 0, 0⟩ = .error 1 ∧
    EmitXmlTuples 100 100 0 SpecialSectionType.none 0 c10Page
      ⟨[], 0, 0⟩ = .error 1 := by
  constructor
  · exact (structural_corruption_aborts 8192 8192 0 0 zeroPage ⟨[], 0, 0⟩
      SpecialSectionType.btree (by decide)).1 (by decide)
  · exact (structural_corruption_aborts 100 100 0 0 c10Page ⟨[], 0, 0⟩
      SpecialSectionType.none (by decide)).2
      ⟨by decide, by decide, by decide, by decide, by decide⟩
      ⟨1, by decide, by decide⟩

/-! # Claim theorems: heap-format slot decoding -/

/-- **C10.** On a non-meta page decoded with the heap-tuple format whose
directory is sane and whose items all fit, the emitted output is exactly
a pass over slots 1..maxOffset in which every slot of nonzero declared
length — whatever its 2-bit status — is decoded by the heap-tuple
decoder, and every slot of zero declared length contributes nothing.
(The fold's step function consults only the slot's length, never its
status bits.) -/
theorem heap_slots_nonzero_decoded
    (blockSize bytesToFormat pageOffset blkno : Nat) (page : Page)
    (st : EmitState) (specialType : SpecialSectionType)
    (hmeta : IsBtreeMetaPage blockSize bytesToFormat page = false)
    (hheap : specialType ≠ SpecialSectionType.hash ∧
      specialType ≠ SpecialSectionType.gist ∧
      specialType ≠ SpecialSectionType.gin ∧
      specialType ≠ SpecialSectionType.spgist ∧
      specialType ≠ SpecialSectionType.btree)
    (hmo1 : 1 ≤ PageGetMaxOffsetNumber page)
    (hmo2 : PageGetMaxOffsetNumber page ≤ blockSize)
    (hfit : ∀ k ∈ List.range' 1 (PageGetMaxOffsetNumber page),
      lpOff (itemIdAt page k) + lpLen (itemIdAt page k) ≤ blockSize ∧
      lpOff (itemIdAt page k) + lpLen (itemIdAt page k) ≤ bytesToFormat) :
    EmitXmlTuples blockSize bytesToFormat pageOffset specialType blkno
        page st =
      .ok (List.foldl
        (fun s k =>
          if lpLen (itemIdAt page k) ≠ 0 then
            EmitXmlHeapTuple blkno k page (lpOff (itemIdAt page k))
              (pageOffset + lpOff (itemIdAt page k))
              (lpLen (itemIdAt page k)) s
          else s)
        st (List.range' 1 (PageGetMaxOffsetNumber page))) := by
  obtain ⟨hh, hg, hn, hs, hb⟩ := hheap
  have h0 : PageGetMaxOffsetNumber page ≠ 0 := by omega
  have h1 : ¬PageGetMaxOffsetNumber page > blockSize := by omega
  rw [EmitXmlTuples_heap_red blockSize bytesToFormat pageOffset blkno page
    st specialType hmeta hh hg hn hs hb h0 h1]
  exact emitTuplesLoop_heap_ok _ _ _ _ _ _ _ hfit

/-- Boolean and propositional start-offset monotonicity agree. -/
theorem chainStartLE_iff :
    ∀ l : List Tag, chainStartLE l = true ↔ List.Chain' tagStartLE l
  | [] => by simp [chainStartLE]
  | [a] => by simp [chainStartLE]
  | a :: b :: l => by
    rw [chainStartLE]
    simp [List.chain'_cons, chainStartLE_iff (b :: l), tagStartLE,
      Bool.and_eq_true]

/-- **C2 counterexample.**  EmitXmlPage on a realistic heap page whose
two tuples are stored top-down (slot 1 at byte 200, slot 2 at byte 100)
emits the second tuple's annotations at lower start offsets than the
first tuple's: start offsets are not non-decreasing within the page. -/
theorem page_start_offsets_cex :
    ¬List.Chain' tagStartLE
      (resultTags
        (EmitXmlPage 8192 8192 false false false 0 c2Page ⟨[], 0, 0⟩)) := by
  rw [← chainStartLE_iff]
  decide

/-! # Helper lemmas: the annotation-id protocol -/

attribute [irreducible] pushTag setExit

theorem seqEmits_refl (st : EmitState) : SeqEmits st st :=
  ⟨[], by simp, by simp, by simp⟩

theorem seqEmits_trans {a b c : EmitState} (h1 : SeqEmits a b)
    (h2 : SeqEmits b c) : SeqEmits a c := by
  obtain ⟨d1, ht1, hn1, hi1⟩ := h1
  obtain ⟨d2, ht2, hn2, hi2⟩ := h2
  refine ⟨d1 ++ d2, ?_, ?_, ?_⟩
  · rw [ht2, ht1, List.append_assoc]
  · rw [hn2, hn1, List.length_append, Nat.add_assoc]
  · rw [List.map_append, hi1, hi2, hn1, List.length_append,
      List.range'_append_1]
    congr 1
    omega

theorem seqEmits_push (st : EmitState) (a b : Nat) (l : Label)
    (c : String) : SeqEmits st (pushTag a b l c st) := by
  refine ⟨[⟨st.tagNumber, a, b, l, c⟩], ?_, ?_, ?_⟩ <;>
    simp [pushTag, List.range']

theorem seqEmits_push_of (a b : EmitState) (h : SeqEmits a b) (x y : Nat)
    (l : Label) (c : String) : SeqEmits a (pushTag x y l c b) :=
  seqEmits_trans h (seqEmits_push b x y l c)

theorem seqEmits_setExit_of (a b : EmitState) (h : SeqEmits a b) :
    SeqEmits a (setExit b) := by
  obtain ⟨d, ht, hn, hi⟩ := h
  exact ⟨d, by rw [setExit_tags]; exact ht,
    by rw [setExit_tagNumber]; exact hn, hi⟩

theorem seqEmits_heapTuple (blkno k : Nat) (page : Page)
    (hbase roff isz : Nat) (st : EmitState) :
    SeqEmits st (EmitXmlHeapTuple blkno k page hbase roff isz st) := by
  unfold EmitXmlHeapTuple EmitXmlTupleTag
  dsimp only
  repeat first
    | apply seqEmits_push_of
    | apply seqEmits_setExit_of
    | split
    | exact seqEmits_refl st

theorem seqEmits_indexTuple (blkno k : Nat) (page : Page)
    (tbase roff : Nat) (st : EmitState) :
    SeqEmits st (EmitXmlIndexTuple blkno k page tbase roff st) := by
  unfold EmitXmlIndexTuple EmitXmlTupleTag
  dsimp only
  repeat first
    | apply seqEmits_push_of
    | apply seqEmits_setExit_of
    | split
    | exact seqEmits_refl st

theorem seqEmits_itemIdLoop (blkno : Nat) (page : Page) (base : Nat)
    (ks : List Nat) (st : EmitState) :
    SeqEmits st (emitItemIdLoop blkno page base ks st) := by
  induction ks generalizing st with
  | nil => exact seqEmits_refl st
  | cons k rest ih =>
    unfold emitItemIdLoop EmitXmlItemId
    dsimp only
    exact seqEmits_trans (seqEmits_push st _ _ _ _) (ih _)

theorem seqEmits_itemIdLoop_of (a b : EmitState) (h : SeqEmits a b)
    (blkno : Nat) (page : Page) (base : Nat) (ks : List Nat) :
    SeqEmits a (emitItemIdLoop blkno page base ks b) :=
  seqEmits_trans h (seqEmits_itemIdLoop blkno page base ks b)

theorem seqEmits_pageHeader (blockSize bytesToFormat pageOffset : Nat)
    (vc cm : Bool) (page : Page) (blkno level : Nat) (st : EmitState) :
    SeqEmits st ((EmitXmlPageHeader blockSize bytesToFormat pageOffset vc
      cm page blkno level st).2) := by
  unfold EmitXmlPageHeader EmitXmlTag
  dsimp only
  repeat first
    | apply seqEmits_push_of
    | apply seqEmits_setExit_of
    | apply seqEmits_itemIdLoop_of
    | split
    | exact seqEmits_refl st

theorem seqEmits_special_of (a b : EmitState) (h : SeqEmits a b)
    (pageOffset : Nat) (specialType : SpecialSectionType)
    (blkno level : Nat) (page : Page) :
    SeqEmits a (EmitXmlSpecial pageOffset specialType blkno level page b) := by
  refine seqEmits_trans h ?_
  unfold EmitXmlSpecial EmitXmlTag
  cases specialType <;> dsimp only <;>
    repeat first
      | apply seqEmits_push_of
      | apply seqEmits_setExit_of
      | exact seqEmits_refl b

theorem seqEmits_tuplesLoop (blockSize bytesToFormat pageOffset blkno : Nat)
    (page : Page) (fa : FormatChoice) (ks : List Nat) (st st' : EmitState)
    (h : emitTuplesLoop blockSize bytesToFormat pageOffset blkno page fa ks
      st = .ok st') : SeqEmits st st' := by
  induction ks generalizing st with
  | nil =>
    unfold emitTuplesLoop at h
    simp only [Except.ok.injEq] at h
    subst h
    exact seqEmits_refl st
  | cons k rest ih =>
    unfold emitTuplesLoop at h
    dsimp only at h
    split at h
    · exact absurd h (by simp)
    · cases fa with
      | heap =>
        dsimp only at h
        split at h
        · exact seqEmits_trans (seqEmits_heapTuple _ _ _ _ _ _ _) (ih _ h)
        · exact ih _ h
      | index =>
        dsimp only at h
        exact seqEmits_trans (seqEmits_indexTuple _ _ _ _ _ _) (ih _ h)

theorem seqEmits_tuples (blockSize bytesToFormat pageOffset : Nat)
    (specialType : SpecialSectionType) (blkno : Nat) (page : Page)
    (st st' : EmitState)
    (h : EmitXmlTuples blockSize bytesToFormat pageOffset specialType blkno
      page st = .ok st') : SeqEmits st st' := by
  unfold EmitXmlTuples at h
  dsimp only at h
  split at h
  · simp only [Except.ok.injEq] at h
    subst h
    exact seqEmits_refl st
  · split at h
    · exact absurd h (by simp)
    · split at h
      · exact absurd h (by simp)
      · split at h <;>
          first
            | exact absurd h (by simp)
            | exact seqEmits_tuplesLoop _ _ _ _ _ _ _ _ _ h

theorem exceptThen_eq_ok (r : Except Nat EmitState)
    (f : EmitState → EmitState) (st' : EmitState) :
    exceptThen r f = .ok st' ↔ ∃ s, r = .ok s ∧ st' = f s := by
  cases r with
  | error e => simp [exceptThen]
  | ok a => simp [exceptThen, eq_comm]

theorem except_bind_eq_ok {α β : Type} (r : Except Nat α)
    (f : α → Except Nat β) (b : β) :
    Except.bind r f = .ok b ↔ ∃ a, r = .ok a ∧ f a = .ok b := by
  cases r <;> simp [Except.bind]

theorem seqEmits_page (blockSize bytesToFormat : Nat)
    (skipLeaf vc cm : Bool) (blkno : Nat) (page : Page) (st st' : EmitState)
    (h : EmitXmlPage blockSize bytesToFormat skipLeaf vc cm blkno page st =
      .ok st') : SeqEmits st st' := by
  unfold EmitXmlPage at h
  dsimp only at h
  split at h
  · simp only [Except.ok.injEq] at h
    subst h
    unfold EmitXmlTag
    exact seqEmits_push st _ _ _ _
  · split at h <;> split at h <;>
      first
        | (rw [exceptThen_eq_ok] at h
           obtain ⟨st2, hT, hst⟩ := h
           subst hst
           have h2 := seqEmits_trans
             (seqEmits_pageHeader blockSize bytesToFormat
               (blockSize * blkno) vc cm page blkno _ st)
             (seqEmits_tuples _ _ _ _ _ _ _ _ hT)
           try dsimp only
           split <;>
             first
               | exact seqEmits_special_of _ _ h2 _ _ _ _ _
               | exact h2)
        | (simp only [Except.ok.injEq] at h
           subst h
           exact seqEmits_pageHeader _ _ _ _ _ _ _ _ _)

theorem seqEmits_fileLoop (blockSize : Nat) (skipLeaf vc : Bool)
    (cm : Nat → Bool) (blkno : Nat) (blocks : List (Page × Nat))
    (st st' : EmitState)
    (h : EmitXmlFileLoop blockSize skipLeaf vc cm blkno blocks st =
      .ok st') : SeqEmits st st' := by
  induction blocks generalizing blkno st with
  | nil =>
    unfold EmitXmlFileLoop at h
    simp only [Except.ok.injEq] at h
    subst h
    exact seqEmits_refl st
  | cons blk rest ih =>
    obtain ⟨pg, bf⟩ := blk
    unfold EmitXmlFileLoop at h
    rw [except_bind_eq_ok] at h
    obtain ⟨st1, hpg, hloop⟩ := h
    exact seqEmits_trans (seqEmits_page _ _ _ _ _ _ _ _ _ hpg)
      (ih _ _ hloop)

/-! # Helper lemmas: start-offset order of the header tags -/

theorem emitItemIdLoop_tags_eq (blkno : Nat) (page : Page) (base : Nat)
    (ks : List Nat) (st : EmitState) :
    (emitItemIdLoop blkno page base ks st).tags =
      st.tags ++ itemIdTags page base ks st.tagNumber := by
  induction ks generalizing st with
  | nil => simp [emitItemIdLoop, itemIdTags]
  | cons k rest ih =>
    unfold emitItemIdLoop EmitXmlItemId
    dsimp only
    rw [ih]
    simp [pushTag, itemIdTags]

theorem EmitXmlPageHeader_tags_eq (blockSize bytesToFormat pageOffset : Nat)
    (vc cm : Bool) (page : Page) (blkno level : Nat) (st : EmitState)
    (hge : ¬bytesToFormat < sizeofPageHeaderData) :
    ∃ base, pageOffset + sizeofPageHeaderData ≤ base ∧
      (EmitXmlPageHeader blockSize bytesToFormat pageOffset vc cm page blkno
          level st).2.tags =
        st.tags ++ headerFixedTags page pageOffset st.tagNumber ++
          (if IsBtreeMetaPage blockSize bytesToFormat page then
            btreeMetaTags pageOffset (st.tagNumber + 8)
          else itemIdTags page base
            (List.range' 1 (PageGetMaxOffsetNumber page))
            (st.tagNumber + 8)) := by
  refine ⟨pageOffset +
    (if 0 < PageGetMaxOffsetNumber page ∧ bytesToFormat <
        sizeofPageHeaderData +
          PageGetMaxOffsetNumber page * sizeofItemIdData then
      bytesToFormat
    else sizeofPageHeaderData), ?_, ?_⟩
  · split <;> unfold sizeofPageHeaderData at hge ⊢ <;> omega
  · unfold EmitXmlPageHeader EmitXmlTag
    rw [if_neg hge]
    dsimp only
    rw [ite_pair_snd_tags, ite_setExit_tags, ite_setExit_tags]
    by_cases hm : IsBtreeMetaPage blockSize bytesToFormat page
    · rw [if_pos hm, if_pos hm]
      simp [pushTag, headerFixedTags, btreeMetaTags, MAXALIGN,
        SizeOfPageHeaderData]
    · rw [if_neg hm, if_neg hm, emitItemIdLoop_tags_eq]
      simp [pushTag, headerFixedTags]

theorem headerFixedTags_chain (page : Page) (pageOffset n : Nat) :
    List.Chain' tagStartLE (headerFixedTags page pageOffset n) := by
  simp [headerFixedTags, List.chain'_cons, tagStartLE]

theorem btreeMetaTags_chain (pageOffset n : Nat) :
    List.Chain' tagStartLE (btreeMetaTags pageOffset n) := by
  simp [btreeMetaTags, List.chain'_cons, tagStartLE]

theorem itemIdTags_chain (page : Page) (base : Nat) :
    ∀ (cnt lo m : Nat), 1 ≤ lo →
      List.Chain' tagStartLE (itemIdTags page base (List.range' lo cnt) m) ∧
      ∀ t ∈ (itemIdTags page base (List.range' lo cnt) m).head?,
        base + sizeofItemIdData * (lo - 1) ≤ t.start := by
  intro cnt
  induction cnt with
  | zero =>
    intro lo m hlo
    exact ⟨by simp [itemIdTags], by simp [itemIdTags]⟩
  | succ cnt ih =>
    intro lo m hlo
    rw [List.range'_succ]
    unfold itemIdTags
    obtain ⟨ihc, ihh⟩ := ih (lo + 1) (m + 1) (by omega)
    constructor
    · rw [List.chain'_cons']
      refine ⟨?_, ihc⟩
      intro y hy
      have := ihh y hy
      unfold tagStartLE
      dsimp only
      unfold sizeofItemIdData at this ⊢
      omega
    · intro t ht
      simp only [List.head?_cons, Option.mem_def, Option.some.injEq] at ht
      subst ht
      dsimp only
      omega

/-! # Claim theorems: the annotation-emission contract -/

/-- **C2 (amended).**  Identifiers behave exactly as claimed: across a
whole run every emitted annotation takes the current counter value and
increments it by one, so ids are strictly increasing (first conjunct:
the ids of all tags of a run started with counter n are precisely
n, n+1, n+2, ...).  Start offsets, however, are guaranteed
non-decreasing only for the page-header/item-directory/meta-struct
annotations (second conjunct); tuple annotations follow slot order, so a
slot stored at a lower byte offset than its predecessor produces a
decrease (see the counterexample). -/
theorem run_ids_sequential_header_monotone :
    (∀ (blockSize : Nat) (skipLeaf verifyChecksums : Bool)
        (checksumMatches : Nat → Bool) (blkno : Nat)
        (blocks : List (Page × Nat)) (n e : Nat),
      List.map Tag.id
          (resultTags (EmitXmlFileLoop blockSize skipLeaf verifyChecksums
            checksumMatches blkno blocks ⟨[], n, e⟩)) =
        List.range' n
          (resultTags (EmitXmlFileLoop blockSize skipLeaf verifyChecksums
            checksumMatches blkno blocks ⟨[], n, e⟩)).length) ∧
    (∀ (blockSize bytesToFormat pageOffset : Nat) (vc cm : Bool)
        (page : Page) (blkno level n e : Nat),
      List.Chain' tagStartLE
        ((EmitXmlPageHeader blockSize bytesToFormat pageOffset vc cm page
            blkno level ⟨[], n, e⟩).2).tags) := by
  constructor
  · intro blockSize skipLeaf vc cm blkno blocks n e
    cases hE : EmitXmlFileLoop blockSize skipLeaf vc cm blkno blocks
        ⟨[], n, e⟩ with
    | error err => simp [resultTags]
    | ok st' =>
      obtain ⟨d, ht, hn, hi⟩ :=
        seqEmits_fileLoop blockSize skipLeaf vc cm blkno blocks _ _ hE
      simp only [resultTags, ht, List.nil_append]
      exact hi
  · intro blockSize bytesToFormat pageOffset vc cm page blkno level n e
    by_cases hsmall : bytesToFormat < sizeofPageHeaderData
    · unfold EmitXmlPageHeader
      rw [if_pos hsmall]
      dsimp only
      rw [setExit_tags]
      simp
    · obtain ⟨base, hbase, heq⟩ := EmitXmlPageHeader_tags_eq blockSize
        bytesToFormat pageOffset vc cm page blkno level ⟨[], n, e⟩ hsmall
      rw [heq]
      simp only [List.nil_append]
      apply List.chain'_append.2
      refine ⟨headerFixedTags_chain page pageOffset n, ?_, ?_⟩
      · split
        · exact btreeMetaTags_chain pageOffset (n + 8)
        · exact (itemIdTags_chain page base
            (PageGetMaxOffsetNumber page) 1 (n + 8) (by omega)).1
      · intro x hx y hy
        have hxv : x.start = pageOffset + 20 := by
          simp [headerFixedTags] at hx
          rw [← hx]
        split at hy
        · have hyv : (⟨n + 8, pageOffset + 24, pageOffset + 27,
              .text "btm_magic", COLOR_PINK⟩ : Tag) = y := by
            simpa [btreeMetaTags] using hy
          unfold tagStartLE
          rw [hxv, ← hyv]
          dsimp only
          omega
        · have hyv := (itemIdTags_chain page base
            (PageGetMaxOffsetNumber page) 1 (n + 8) (by omega)).2 y hy
          unfold tagStartLE
          unfold sizeofItemIdData at hyv
          unfold sizeofPageHeaderData at hbase
          omega

theorem heap_slots_nonzero_decoded_witness :
    EmitXmlTuples 8192 8192 0 SpecialSectionType.none 0 c10Page
        ⟨[], 0, 0⟩ =
      .ok (List.foldl
        (fun s k =>
          if lpLen (itemIdAt c10Page k) ≠ 0 then
            EmitXmlHeapTuple 0 k c10Page (lpOff (itemIdAt c10Page k))
              (0 + lpOff (itemIdAt c10Page k))
              (lpLen (itemIdAt c10Page k)) s
          else s)
        ⟨[], 0, 0⟩ (List.range' 1 (PageGetMaxOffsetNumber c10Page))) :=
  heap_slots_nonzero_decoded 8192 8192 0 0 c10Page ⟨[], 0, 0⟩
    SpecialSectionType.none (by decide)
    ⟨by decide, by decide, by decide, by decide, by decide⟩
    (by decide) (by decide) (by decide)

end PgHexedit
